/-
Verification of the polyhedron-connectivity pipeline of
`connectivity_from_structure.py` (structural_descriptors repository).

The Python source is shallowly embedded below.  External collaborators
(pymatgen's `Structure` / `PeriodicSite` and the bond-weight formula from
`effective_coordination`) are modelled as explicit data / function
parameters:

* `PeriodicSite` carries an `objId : Nat` modelling Python object identity;
  pymatgen's `==` (used by the source at lines 55 and 61) compares species,
  fractional coordinates and lattice by value and ignores identity, which
  `siteEq` reproduces.
* fractional coordinates and distances are rationals;
* `structure.get_neighbors` is an oracle parameter `neigh`;
* `calculate_bond_weight` is an oracle parameter `w`.

All definitions are translated from the source file; definitions whose doc
comment says so are instead modelled from the specification's words (they
exist only to be compared against the source-derived definitions).
-/
import Mathlib

namespace ConnFS

/-- Model of a pymatgen lattice object.  The source only ever passes the
lattice through unchanged (`site.lattice`, `structure.lattice`), so an
opaque identifier suffices. -/
structure Lattice where
  id : Nat
  deriving DecidableEq

/-- Fractional coordinates: a triple of rationals. -/
abbrev Vec3 : Type := ℚ × ℚ × ℚ

/-- Model of a pymatgen `PeriodicSite`.  `objId` models Python object
identity; it is ignored by `siteEq` (pymatgen value equality). -/
structure PeriodicSite where
  objId : Nat
  species_string : String
  frac_coords : Vec3
  lattice : Lattice
  deriving DecidableEq

/-- The value part of a site: everything pymatgen `==` compares. -/
def strip (s : PeriodicSite) : String × Vec3 × Lattice :=
  (s.species_string, s.frac_coords, s.lattice)

/-- pymatgen `PeriodicSite.__eq__`: species, coordinates and lattice are
compared by value; object identity (`objId`) plays no role. -/
def siteEq (a b : PeriodicSite) : Bool :=
  decide (strip a = strip b)

theorem siteEq_refl (a : PeriodicSite) : siteEq a a = true := by
  simp [siteEq]

theorem siteEq_comm (a b : PeriodicSite) : siteEq a b = siteEq b a := by
  simp [siteEq, eq_comm]

/-- Model of a pymatgen `Structure`: a lattice plus a list of sites. -/
structure Structure where
  lattice : Lattice
  sites : List PeriodicSite
  deriving DecidableEq

/-- The pymatgen constructor `Structure(lattice, species, coords)` used at
line 244 of the source: it creates fresh site objects from parallel lists
of species strings and fractional coordinates.  Freshly constructed
objects get `objId` 0 (identity is semantically inert: `siteEq` ignores
it). -/
def Structure.ofSpecies (lat : Lattice) (species : List String)
    (coords : List Vec3) : Structure :=
  ⟨lat, (species.zip coords).map (fun sc => ⟨0, sc.1, sc.2, lat⟩)⟩

/-- The anion species list (source lines 124, 194, 222). -/
def anions : List String :=
  ["O2-", "O", "F-", "F", "Cl-", "Cl", "I-", "I", "Br-", "Br", "S2-", "S"]

/-- `not site.species_string in anions` (source line 226). -/
def isCationB (site : PeriodicSite) : Bool :=
  !(anions.contains site.species_string)

/-! ### Boundary reflection generator (source lines 276-319) -/

/-- The per-axis sign computation of `checkReflections` (source lines
277-293): the low-boundary test sets the sign to `1`, then the
high-boundary test overrides it with `-1`. -/
def codeSign (c margin : ℚ) : ℤ :=
  let v : ℤ := if 0 ≤ c ∧ c ≤ margin then 1 else 0
  if c ≤ 1 ∧ 1 - margin ≤ c then -1 else v

/-- `PeriodicSite(site.species_string, site.frac_coords + [dx,dy,dz],
site.lattice)`: the reflected copy construction of the source. -/
def mkR (site : PeriodicSite) (dx dy dz : ℤ) : PeriodicSite :=
  ⟨0, site.species_string,
    site.frac_coords + ((dx : ℚ), (dy : ℚ), (dz : ℚ)), site.lattice⟩

/-- The emission block of `checkReflections` (source lines 295-317), in
source order: the x branch emits [x], [x,y], [x,y,z], [x,z]; the y branch
[y], [y,z]; the z branch [z]. -/
def buildRefl (x y z : ℤ) (site : PeriodicSite) : List PeriodicSite :=
  (if x ≠ 0 then
      [mkR site x 0 0] ++
        ((if y ≠ 0 then
            [mkR site x y 0] ++ (if z ≠ 0 then [mkR site x y z] else [])
          else []) ++
          (if z ≠ 0 then [mkR site x 0 z] else []))
    else []) ++
  (if y ≠ 0 then
      [mkR site 0 y 0] ++ (if z ≠ 0 then [mkR site 0 y z] else [])
    else []) ++
  (if z ≠ 0 then [mkR site 0 0 z] else [])

/-- `checkReflections(site, margin)` (source lines 276-319). -/
def checkReflections (site : PeriodicSite) (margin : ℚ) : List PeriodicSite :=
  let x := codeSign site.frac_coords.1 margin
  let y := codeSign site.frac_coords.2.1 margin
  let z := codeSign site.frac_coords.2.2 margin
  buildRefl x y z site

/-- Modelled from the spec: the per-axis reflection sign, `+1` when the
coordinate is in `[0, margin]`, `-1` when it is in `[1-margin, 1]`,
`0` otherwise. -/
def specSign (c margin : ℚ) : ℤ :=
  if 0 ≤ c ∧ c ≤ margin then 1
  else if 1 - margin ≤ c ∧ c ≤ 1 then -1
  else 0

/-- The seven non-empty subsets of the three axes, in the emission order
of the source. -/
def axisMasks : List (Bool × Bool × Bool) :=
  [(true, false, false), (true, true, false), (true, true, true),
   (true, false, true), (false, true, false), (false, true, true),
   (false, false, true)]

/-- The reflected copy for one axis subset: the site translated by the
signed unit vector on the selected axes, species and lattice unchanged. -/
def applyMask (x y z : ℤ) (m : Bool × Bool × Bool) (site : PeriodicSite) :
    PeriodicSite :=
  mkR site (if m.1 then x else 0) (if m.2.1 then y else 0)
    (if m.2.2 then z else 0)

/-- An axis subset is used exactly when every selected axis has a non-zero
sign. -/
def maskActive (x y z : ℤ) (m : Bool × Bool × Bool) : Bool :=
  (!m.1 || decide (x ≠ 0)) && (!m.2.1 || decide (y ≠ 0)) &&
    (!m.2.2 || decide (z ≠ 0))

/-- Modelled from the spec: one reflected copy for every non-empty subset
of the axes whose sign is non-zero. -/
def reflectSpec (site : PeriodicSite) (margin : ℚ) : List PeriodicSite :=
  let x := specSign site.frac_coords.1 margin
  let y := specSign site.frac_coords.2.1 margin
  let z := specSign site.frac_coords.2.2 margin
  axisMasks.filterMap (fun m =>
    if maskActive x y z m then some (applyMask x y z m site) else none)

theorem codeSign_eq_specSign (c margin : ℚ) (h : margin < 1/2) :
    codeSign c margin = specSign c margin := by
  unfold codeSign specSign
  dsimp only
  by_cases hlow : 0 ≤ c ∧ c ≤ margin <;>
    by_cases hhigh : c ≤ 1 ∧ 1 - margin ≤ c
  · exact absurd (by linarith [hlow.1, hlow.2, hhigh.1, hhigh.2] :
      (1:ℚ)/2 ≤ margin) (by linarith)
  · rw [if_neg hhigh, if_pos hlow, if_pos hlow]
  · have hhigh2 : 1 - margin ≤ c ∧ c ≤ 1 := ⟨hhigh.2, hhigh.1⟩
    rw [if_pos hhigh, if_neg hlow, if_pos hhigh2]
  · have hhigh2 : ¬ (1 - margin ≤ c ∧ c ≤ 1) := fun h2 => hhigh ⟨h2.2, h2.1⟩
    rw [if_neg hhigh, if_neg hlow, if_neg hlow, if_neg hhigh2]

theorem buildRefl_eq_filterMap (x y z : ℤ) (site : PeriodicSite) :
    buildRefl x y z site =
      axisMasks.filterMap (fun m =>
        if maskActive x y z m then some (applyMask x y z m site) else none) := by
  by_cases hx : x = 0 <;> by_cases hy : y = 0 <;> by_cases hz : z = 0 <;>
    simp [buildRefl, axisMasks, maskActive, applyMask, hx, hy, hz,
      List.filterMap]

theorem checkReflections_eq_reflectSpec (site : PeriodicSite) (margin : ℚ)
    (h : margin < 1/2) :
    checkReflections site margin = reflectSpec site margin := by
  unfold checkReflections reflectSpec
  rw [codeSign_eq_specSign _ _ h, codeSign_eq_specSign _ _ h,
    codeSign_eq_specSign _ _ h, buildRefl_eq_filterMap]

theorem mem_checkReflections_fields (site : PeriodicSite) (margin : ℚ)
    (r : PeriodicSite) (hr : r ∈ checkReflections site margin) :
    r.species_string = site.species_string ∧ r.lattice = site.lattice := by
  rw [checkReflections, buildRefl_eq_filterMap] at hr
  rcases List.mem_filterMap.mp hr with ⟨m, _, hm⟩
  split at hm
  · cases hm
    exact ⟨rfl, rfl⟩
  · cases hm

theorem checkReflections_length_le (site : PeriodicSite) (margin : ℚ) :
    (checkReflections site margin).length ≤ 7 := by
  rw [checkReflections, buildRefl_eq_filterMap]
  exact le_trans (List.length_filterMap_le _ _) (by simp [axisMasks])

/-! ### The `Polyhedra` entity (source lines 23-77) -/

/-- `Polyhedra.__init__` (source lines 31-33): a central ion site and the
surrounding (site, distance) entries returned by neighbor search. -/
structure Polyhedra where
  center : PeriodicSite
  peripheralIons : List (PeriodicSite × ℚ)
  deriving DecidableEq

/-- `get_central_name` (source lines 35-36). -/
def Polyhedra.get_central_name (p : Polyhedra) : String :=
  p.center.species_string

/-- `get_peripheral_sites` (source lines 38-39). -/
def Polyhedra.get_peripheral_sites (p : Polyhedra) : List (PeriodicSite × ℚ) :=
  p.peripheralIons

/-- `get_central_site` (source lines 41-42). -/
def Polyhedra.get_central_site (p : Polyhedra) : PeriodicSite :=
  p.center

/-- The inner `for site2 ... if site1[0] == site2[0]: ...; break` loop of
`get_connectivity` (source lines 60-63): true when some entry of the
other polyhedron's peripheral list compares equal to `s1`. -/
def innerMatch (s1 : PeriodicSite) : List (PeriodicSite × ℚ) → Bool
  | [] => false
  | e :: rest => if siteEq s1 e.1 then true else innerMatch s1 rest

/-- The outer `for site1 in self._peripheralIons` loop of
`get_connectivity` (source lines 58-63): each matched entry adds one to
`connections` (the `break` caps the contribution of one entry at one). -/
def connLoop (bper : List (PeriodicSite × ℚ)) :
    List (PeriodicSite × ℚ) → ℕ
  | [] => 0
  | e :: rest =>
      (if innerMatch e.1 bper then 1 else 0) + connLoop bper rest

/-- `get_connectivity` (source lines 44-65). -/
def Polyhedra.get_connectivity (p q : Polyhedra) : ℤ :=
  if siteEq p.center q.get_central_site then -1
  else (connLoop q.get_peripheral_sites p.peripheralIons : ℤ)

theorem innerMatch_eq_any (s1 : PeriodicSite)
    (l : List (PeriodicSite × ℚ)) :
    innerMatch s1 l = l.any (fun e => siteEq s1 e.1) := by
  induction l with
  | nil => rfl
  | cons e rest ih =>
      by_cases h : siteEq s1 e.1 = true <;> simp [innerMatch, h, ih]

theorem connLoop_eq_countP (bper aper : List (PeriodicSite × ℚ)) :
    connLoop bper aper =
      aper.countP (fun e => bper.any (fun f => siteEq e.1 f.1)) := by
  induction aper with
  | nil => rfl
  | cons e rest ih =>
      rw [connLoop, ih, List.countP_cons, innerMatch_eq_any]
      by_cases h : bper.any (fun f => siteEq e.1 f.1) = true <;>
        simp [h, Nat.add_comm]

/-! ### Polyhedron builder (source lines 220-274) and
`get_polyhedra` (source lines 113-138) -/

/-- Python 2 `round`: to the nearest integer, halves away from zero
(the source applies it to `sum(bondweights)` at line 270). -/
def pyRound (q : ℚ) : ℤ :=
  if 0 ≤ q then ⌊q + 1/2⌋ else ⌈q - 1/2⌉

/-- The `for bond in anionSites` loop of the builder (source lines
260-267): under the probe species `"Rn"` every bond is kept with weight
1.0; otherwise a bond is kept exactly when its bond weight is `> 0`.
Returns the kept entries (appended to `sites`) and the collected
`bondweights`, in source order. -/
def selectBonds (spec : String) (w : ℚ → List ℚ → ℚ)
    (bondlengths : List ℚ) :
    List (PeriodicSite × ℚ) → List (PeriodicSite × ℚ) × List ℚ
  | [] => ([], [])
  | bond :: rest =>
      let acc := selectBonds spec w bondlengths rest
      if spec = "Rn" then (bond :: acc.1, 1 :: acc.2)
      else if 0 < w bond.2 bondlengths then
        (bond :: acc.1, w bond.2 bondlengths :: acc.2)
      else acc

/-- The per-site body of the builder loop (source lines 249-270): filter
the neighbor entries to anions strictly inside `radius`, apply the bond
selection, and record `[sites, round(sum(bondweights))]`.  The Python
list `sites` = `[site] + keptEntries` is rendered as the pair
`(site, keptEntries)` (its head is always the bare central site, every
later element a (site, distance) entry). -/
def anionSitesOf
    (neigh : Structure → PeriodicSite → ℚ → List (PeriodicSite × ℚ))
    (σ : Structure) (site : PeriodicSite) (radius : ℚ) :
    List (PeriodicSite × ℚ) :=
  (neigh σ site radius).filter
    (fun e => anions.contains e.1.species_string && decide (e.2 < radius))

def buildPoly (neigh : Structure → PeriodicSite → ℚ → List (PeriodicSite × ℚ))
    (w : ℚ → List ℚ → ℚ) (σ : Structure) (site : PeriodicSite) (radius : ℚ) :
    (PeriodicSite × List (PeriodicSite × ℚ)) × ℤ :=
  let anionSites := anionSitesOf neigh σ site radius
  let bondlengths := anionSites.map (fun e => e.2)
  let sel := selectBonds site.species_string w bondlengths anionSites
  ((site, sel.1), pyRound sel.2.sum)

/-- The reflections accumulated over all cation sites
(source lines 228-230). -/
def reflectionsOf (s : Structure) (margin : ℚ) : List PeriodicSite :=
  (s.sites.filter isCationB).flatMap (fun site => checkReflections site margin)

/-- The structure the neighbor queries are made against: the local
`structure` binding after source line 246 — the freshly constructed
augmented snapshot when reflections exist, the input structure
otherwise. -/
def queryStructOf (s : Structure) (margin : ℚ) : Structure :=
  if 0 < (reflectionsOf s margin).length then
    Structure.ofSpecies s.lattice
      (s.sites.map (fun t => t.species_string) ++
        (reflectionsOf s margin).map (fun t => t.species_string))
      (s.sites.map (fun t => t.frac_coords) ++
        (reflectionsOf s margin).map (fun t => t.frac_coords))
  else s

/-- `getAllCationPolyhedralWReflections(structure, margin, radius)`
(source lines 220-274).  `neigh` models `structure.get_neighbors`, `w`
models `calculate_bond_weight`. -/
def getAllCationPolyhedralWReflections
    (neigh : Structure → PeriodicSite → ℚ → List (PeriodicSite × ℚ))
    (w : ℚ → List ℚ → ℚ) (s : Structure) (margin radius : ℚ) :
    List ((PeriodicSite × List (PeriodicSite × ℚ)) × ℤ) :=
  let cationSites := s.sites.filter isCationB
  let reflections := cationSites.flatMap (fun site => checkReflections site margin)
  let useTemp := decide (0 < reflections.length)
  let cationSites2 := if useTemp then cationSites ++ reflections else cationSites
  let structureLocal :=
    if useTemp then
      Structure.ofSpecies s.lattice
        (s.sites.map (fun t => t.species_string) ++
          reflections.map (fun t => t.species_string))
        (s.sites.map (fun t => t.frac_coords) ++
          reflections.map (fun t => t.frac_coords))
    else s
  cationSites2.map (fun site => buildPoly neigh w structureLocal site radius)

/-- The builder embedded over the mutable state of the caller's structure
object: every source statement that touches the input object is a read
(`get`); the rebinding at line 246 only redirects the local variable to
the freshly built `tempstruct`, so no statement writes the state. -/
def getAllCationPolyhedralWReflectionsSt
    (neigh : Structure → PeriodicSite → ℚ → List (PeriodicSite × ℚ))
    (w : ℚ → List ℚ → ℚ) (margin radius : ℚ) :
    StateM Structure (List ((PeriodicSite × List (PeriodicSite × ℚ)) × ℤ)) := do
  let s0 ← get
  let cationSites := s0.sites.filter isCationB
  let reflections := cationSites.flatMap (fun site => checkReflections site margin)
  let useTemp := decide (0 < reflections.length)
  let cationSites2 := if useTemp then cationSites ++ reflections else cationSites
  let s1 ← get
  let structureLocal :=
    if useTemp then
      Structure.ofSpecies s1.lattice
        (s1.sites.map (fun t => t.species_string) ++
          reflections.map (fun t => t.species_string))
        (s1.sites.map (fun t => t.frac_coords) ++
          reflections.map (fun t => t.frac_coords))
    else s1
  pure (cationSites2.map (fun site => buildPoly neigh w structureLocal site radius))

/-- `get_polyhedra(structure, site, radius)` (source lines 113-138): the
sibling polyhedron constructor, whose bond-weight threshold is
`> 10.0**-5` (line 135). -/
def get_polyhedra
    (neigh : Structure → PeriodicSite → ℚ → List (PeriodicSite × ℚ))
    (w : ℚ → List ℚ → ℚ) (s : Structure) (site : PeriodicSite)
    (radius : ℚ) : Polyhedra :=
  let anionSites := (neigh s site radius).filter
    (fun e => anions.contains e.1.species_string && decide (e.2 < radius))
  let bondlengths := anionSites.map (fun e => e.2)
  let peripheralSites := anionSites.filter
    (fun e => decide (1/100000 < w e.2 bondlengths))
  Polyhedra.mk site peripheralSites

/-! ### Connectivity classifier (source lines 140-180)

`count_connectivity` obtains its working list from
`getAllCationPolyhedralWReflections` and then runs the loop of lines
158-180 on it, invoking `Polyhedra` accessors on the list members.  The
loop below embeds lines 158-180 over a list of `Polyhedra`; the shape
mismatch between the builder's actual return value and what the loop
consumes is the subject of claim C1. -/

/-- A 4-vector of counts `[isolated, point, edge, face]`. -/
abbrev N4 : Type := ℕ × ℕ × ℕ × ℕ

/-- The Python dict `connections`, insertion ordered. -/
abbrev Dict : Type := List (String × N4)

/-- `connections[cation]` lookup. -/
def dictLookup (d : Dict) (k : String) : Option N4 :=
  (d.find? (fun e => e.1 == k)).map (fun e => e.2)

/-- In-place `+=` on the entry of key `k` (the key is present whenever the
source performs it). -/
def dictAdd (d : Dict) (k : String) (v : N4) : Dict :=
  d.map (fun e => if e.1 == k then (e.1, e.2 + v) else e)

/-- The inner `for polyhedra2 in polyhedraList` loop (source lines
164-176): accumulates the point/edge/face increments for `polyhedra1`
and the `connected` flag. -/
def innerScan (p : Polyhedra) : List Polyhedra → (ℕ × ℕ × ℕ) × Bool
  | [] => ((0, 0, 0), false)
  | q :: rest =>
      let c := p.get_connectivity q
      let acc := innerScan p rest
      if c < 0 then acc
      else if c = 1 then ((acc.1.1 + 1, acc.1.2.1, acc.1.2.2), true)
      else if c = 2 then ((acc.1.1, acc.1.2.1 + 1, acc.1.2.2), true)
      else if 3 ≤ c then ((acc.1.1, acc.1.2.1, acc.1.2.2 + 1), true)
      else acc

/-- Processing of one `polyhedra1` (source lines 160-178): ensure the
species key exists with `[0,0,0,0]`, run the inner loop, add the three
sharing counters and, when `connected` stayed false, one isolated
count. -/
def processP (L : List Polyhedra) (d : Dict) (p : Polyhedra) : Dict :=
  let cation := p.get_central_name
  let d2 := if (dictLookup d cation).isSome then d else d ++ [(cation, (0, 0, 0, 0))]
  let r := innerScan p L
  dictAdd d2 cation ((if r.2 then 0 else 1), r.1.1, r.1.2.1, r.1.2.2)

/-- The classifier loop of `count_connectivity` (source lines 158-180),
over a working list of polyhedra. -/
def count_connectivity (L : List Polyhedra) : Dict :=
  L.foldl (processP L) []

/-- Closed form of one polyhedron's contribution: one isolated count iff
no comparison against the working list yields a positive shared count,
else one point/edge/face count per comparison with shared count 1 / 2 /
`≥ 3`. -/
def contrib (L : List Polyhedra) (p : Polyhedra) : N4 :=
  ((if L.any (fun q => decide (0 < p.get_connectivity q)) then 0 else 1),
   L.countP (fun q => decide (p.get_connectivity q = 1)),
   L.countP (fun q => decide (p.get_connectivity q = 2)),
   L.countP (fun q => decide (3 ≤ p.get_connectivity q)))

/-- Sum of the contributions of the polyhedra of species `sp` in `M`,
comparisons taken against the working list `L`. -/
def contribSum (L M : List Polyhedra) (sp : String) : N4 :=
  ((M.filter (fun p => decide (p.get_central_name = sp))).map (contrib L)).sum

theorem innerScan_eq (p : Polyhedra) (L : List Polyhedra) :
    innerScan p L =
      ((L.countP (fun q => decide (p.get_connectivity q = 1)),
        L.countP (fun q => decide (p.get_connectivity q = 2)),
        L.countP (fun q => decide (3 ≤ p.get_connectivity q))),
       L.any (fun q => decide (0 < p.get_connectivity q))) := by
  induction L with
  | nil => rfl
  | cons q rest ih =>
      rw [innerScan, ih]
      rcases lt_trichotomy (p.get_connectivity q) 0 with hc | hc | hc
      · have h1 : ¬ p.get_connectivity q = 1 := by omega
        have h2 : ¬ p.get_connectivity q = 2 := by omega
        have h3 : ¬ 3 ≤ p.get_connectivity q := by omega
        have h4 : ¬ 0 < p.get_connectivity q := by omega
        simp [hc, h1, h2, h3, h4, List.countP_cons]
      · have h1 : ¬ p.get_connectivity q < 0 := by omega
        have h2 : ¬ p.get_connectivity q = 1 := by omega
        have h3 : ¬ p.get_connectivity q = 2 := by omega
        have h4 : ¬ 3 ≤ p.get_connectivity q := by omega
        have h5 : ¬ 0 < p.get_connectivity q := by omega
        simp [h1, h2, h3, h4, h5, hc, List.countP_cons]
      · have h0 : ¬ p.get_connectivity q < 0 := by omega
        have hpos : 0 < p.get_connectivity q := hc
        rcases (by omega :
            p.get_connectivity q = 1 ∨ p.get_connectivity q = 2 ∨
              3 ≤ p.get_connectivity q) with h | h | h
        · have h2 : ¬ p.get_connectivity q = 2 := by omega
          have h3 : ¬ 3 ≤ p.get_connectivity q := by omega
          simp [h0, h, h2, h3, hpos, List.countP_cons]
        · have h1 : ¬ p.get_connectivity q = 1 := by omega
          have h3 : ¬ 3 ≤ p.get_connectivity q := by omega
          simp [h0, h, h1, h3, hpos, List.countP_cons]
        · have h1 : ¬ p.get_connectivity q = 1 := by omega
          have h2 : ¬ p.get_connectivity q = 2 := by omega
          simp [h0, h, h1, h2, hpos, List.countP_cons]

theorem singleton_find? (k : String) (v : N4) (s : String) :
    List.find? (fun e => e.1 == s) [(k, v)] =
      if k = s then some (k, v) else none := by
  by_cases h : k = s
  · rw [List.find?_cons_of_pos _ (by simp [h]), if_pos h]
  · rw [List.find?_cons_of_neg _ (by simp [h]), if_neg h, List.find?_nil]

theorem dictLookup_append_single (d : Dict) (k : String) (v : N4)
    (s : String) (hnone : dictLookup d s = none) :
    dictLookup (d ++ [(k, v)]) s = if s = k then some v else none := by
  have hfind : List.find? (fun e => e.1 == s) d = none := by
    rcases h : List.find? (fun e => e.1 == s) d with _ | e
    · exact h
    · rw [dictLookup, h] at hnone
      cases hnone
  rw [dictLookup, List.find?_append, hfind, Option.none_or, singleton_find?]
  by_cases h : s = k
  · rw [if_pos h.symm, if_pos h]
    rfl
  · rw [if_neg (fun hh => h hh.symm), if_neg h]
    rfl

theorem dictLookup_append_other (d : Dict) (k : String) (v : N4)
    (s : String) (h : s ≠ k) :
    dictLookup (d ++ [(k, v)]) s = dictLookup d s := by
  rw [dictLookup, List.find?_append, singleton_find?,
    if_neg (fun hh => h hh.symm), Option.or_none]
  rfl

theorem dictLookup_dictAdd (d : Dict) (k : String) (v : N4) (s : String) :
    dictLookup (dictAdd d k v) s =
      if s = k then (dictLookup d s).map (fun u => u + v)
      else dictLookup d s := by
  have hpf : ((fun e : String × N4 => e.1 == s) ∘
      (fun e : String × N4 => if e.1 == k then (e.1, e.2 + v) else e)) =
      (fun e : String × N4 => e.1 == s) := by
    funext e
    by_cases h : e.1 = k <;> simp [h]
  by_cases h : s = k
  · subst h
    rw [if_pos rfl, dictLookup, dictAdd, List.find?_map, hpf]
    rcases hfind : List.find? (fun e => e.1 == s) d with _ | e
    · simp [dictLookup, hfind]
    · have he : e.1 = s := by simpa using List.find?_some hfind
      simp [dictLookup, hfind, he]
  · rw [if_neg h, dictLookup, dictAdd, List.find?_map, hpf]
    rcases hfind : List.find? (fun e => e.1 == s) d with _ | e
    · simp [dictLookup, hfind]
    · have he : e.1 = s := by simpa using List.find?_some hfind
      have hne : ¬ e.1 = k := fun hh => h (by rw [← he, hh])
      simp [dictLookup, hfind, hne]

theorem contribSum_cons_pos (L : List Polyhedra) (p : Polyhedra)
    (M : List Polyhedra) (s : String) (h : p.get_central_name = s) :
    contribSum L (p :: M) s = contrib L p + contribSum L M s := by
  simp [contribSum, List.filter_cons, h]

theorem contribSum_cons_neg (L : List Polyhedra) (p : Polyhedra)
    (M : List Polyhedra) (s : String) (h : ¬ p.get_central_name = s) :
    contribSum L (p :: M) s = contribSum L M s := by
  simp [contribSum, List.filter_cons, h]

theorem processP_lookup (L : List Polyhedra) (d : Dict) (p : Polyhedra)
    (s : String) :
    dictLookup (processP L d p) s =
      if p.get_central_name = s then
        some ((dictLookup d s).getD 0 + contrib L p)
      else dictLookup d s := by
  have hinc : ((if (innerScan p L).2 then 0 else 1), (innerScan p L).1.1,
      (innerScan p L).1.2.1, (innerScan p L).1.2.2) = contrib L p := by
    rw [innerScan_eq]
    rfl
  unfold processP
  dsimp only
  rw [dictLookup_dictAdd, hinc]
  by_cases hname : p.get_central_name = s
  · rw [if_pos hname.symm, if_pos hname]
    by_cases hsome : (dictLookup d p.get_central_name).isSome = true
    · rw [if_pos hsome]
      rcases hu : dictLookup d s with _ | u
      · rw [hname, hu] at hsome
        simp at hsome
      · simp [hu]
    · rw [if_neg hsome]
      have hnone : dictLookup d p.get_central_name = none := by
        rcases hh : dictLookup d p.get_central_name with _ | u
        · rfl
        · rw [hh] at hsome
          simp at hsome
      rw [dictLookup_append_single d _ _ s (by rw [← hname]; exact hnone),
        if_pos hname.symm]
      have hds : dictLookup d s = none := by
        rw [← hname]
        exact hnone
      simp [hds]
  · rw [if_neg (fun hh => hname hh.symm), if_neg hname]
    by_cases hsome : (dictLookup d p.get_central_name).isSome = true
    · rw [if_pos hsome]
    · rw [if_neg hsome,
        dictLookup_append_other d _ _ s (fun hh => hname hh.symm)]

theorem foldl_processP_lookup (L M : List Polyhedra) (d : Dict)
    (s : String) :
    dictLookup (M.foldl (processP L) d) s =
      match dictLookup d s with
      | some v => some (v + contribSum L M s)
      | none =>
          if M.any (fun p => decide (p.get_central_name = s)) then
            some (contribSum L M s)
          else none := by
  induction M generalizing d with
  | nil =>
      rcases h : dictLookup d s with _ | v <;> simp [contribSum, h]
  | cons p M ih =>
      rw [List.foldl_cons, ih, processP_lookup]
      by_cases hname : p.get_central_name = s
      · rw [if_pos hname, contribSum_cons_pos L p M s hname]
        rcases h : dictLookup d s with _ | v
        · simp [h, hname, add_assoc]
        · simp [h, hname, add_assoc]
      · rw [if_neg hname, contribSum_cons_neg L p M s hname]
        rcases h : dictLookup d s with _ | v <;> simp [h, hname]

/-- Closed form of the classifier: the histogram entry of species `s` is
the sum of the per-polyhedron contributions of the polyhedra of that
species (present exactly when the species occurs in the working list). -/
theorem count_connectivity_lookup (L : List Polyhedra) (s : String) :
    dictLookup (count_connectivity L) s =
      if L.any (fun p => decide (p.get_central_name = s)) then
        some (contribSum L L s)
      else none := by
  rw [count_connectivity, foldl_processP_lookup]
  rfl

/-! ### Concrete fixtures for evaluations and witnesses -/

def latt0 : Lattice := ⟨0⟩

def naSite : PeriodicSite := ⟨0, "Na", (1/2, 1/2, 1/2), latt0⟩

/-- A structure holding a single interior cation. -/
def s1 : Structure := ⟨latt0, [naSite]⟩

/-- A neighbor oracle returning no neighbors. -/
def neighEmpty : Structure → PeriodicSite → ℚ → List (PeriodicSite × ℚ) :=
  fun _ _ _ => []

/-- A constant bond-weight function. -/
def wOne : ℚ → List ℚ → ℚ := fun _ _ => 1

def o1 : PeriodicSite := ⟨1, "O", (0, 0, 0), latt0⟩

def o2 : PeriodicSite := ⟨2, "O", (0, 0, 1/4), latt0⟩

def o3 : PeriodicSite := ⟨3, "O", (0, 1/4, 0), latt0⟩

def o4 : PeriodicSite := ⟨4, "O", (1/4, 0, 0), latt0⟩

/-- A neighbor oracle with three anions at distance 2 and one at
distance 4. -/
def neigh4 : Structure → PeriodicSite → ℚ → List (PeriodicSite × ℚ) :=
  fun _ _ _ => [(o1, 2), (o2, 2), (o3, 2), (o4, 4)]

/-- A bond-weight function (satisfying the spec's black-box contract:
non-negative and non-increasing in the distance) that gives distant
neighbors the tiny weight `10^-6 ∈ (0, 10^-5]`. -/
def w4 : ℚ → List ℚ → ℚ := fun d _ => if d ≤ 3 then 1 else 1/1000000

/-- C1: the polyhedron builder does not return `Polyhedra` values: at a
one-cation structure it returns a list of pairs
`(site list rendered as (center, neighbor entries), rounded bond-weight
sum)` (source line 270), which is the shape the classifier of lines
158-180 cannot consume (it invokes `Polyhedra` accessors on it). -/
theorem codeSign_half (m : ℚ) (h1 : ¬ ((1:ℚ)/2 ≤ m)) (h2 : ¬ (1 - m ≤ 1/2)) :
    codeSign (1/2) m = 0 := by
  rw [codeSign]
  rw [if_neg (fun hh => h2 hh.2), if_neg (fun hh => h1 hh.2)]

theorem checkReflections_naSite (m : ℚ) (h1 : ¬ ((1:ℚ)/2 ≤ m))
    (h2 : ¬ (1 - m ≤ 1/2)) : checkReflections naSite m = [] := by
  rw [checkReflections]
  show buildRefl (codeSign (1/2) m) (codeSign (1/2) m) (codeSign (1/2) m)
    naSite = []
  rw [codeSign_half m h1 h2]
  rfl

theorem builder_neighEmpty_eval (radius : ℚ) :
    getAllCationPolyhedralWReflections neighEmpty wOne s1 (1/20) radius
      = [((naSite, []), 0)] := by
  have hrefl := checkReflections_naSite (1/20) (by norm_num) (by norm_num)
  rw [getAllCationPolyhedralWReflections]
  have hfil : List.filter isCationB s1.sites = [naSite] := by
    simp [s1, isCationB, anions, naSite]
  rw [hfil]
  simp only [List.flatMap_cons, List.flatMap_nil, hrefl, List.append_nil,
    List.length_nil]
  norm_num [buildPoly, anionSitesOf, neighEmpty, selectBonds, pyRound]

theorem builder_returns_sitelist_pairs :
    getAllCationPolyhedralWReflections neighEmpty wOne s1 (1/20) 3
      = [((naSite, []), 0)] :=
  builder_neighEmpty_eval 3

/-- C4: at distances `[2,2,2,4]`, the neighbor at distance 4 whose bond
weight `10^-6` lies in `(0, 10^-5]` is kept by the builder (its line 265
threshold is `> 0`, not `> 10^-5`), while the sibling `get_polyhedra`
(line 135, threshold `> 10.0**-5`) excludes it. -/
theorem builder_weight_filter_zero_threshold :
    getAllCationPolyhedralWReflections neigh4 w4 s1 (1/20) 5
      = [((naSite, [(o1, 2), (o2, 2), (o3, 2), (o4, 4)]), 3)]
  ∧ w4 4 [2, 2, 2, 4] ≤ 1/100000
  ∧ 0 < w4 4 [2, 2, 2, 4]
  ∧ (get_polyhedra neigh4 w4 s1 naSite 5).peripheralIons
      = [(o1, 2), (o2, 2), (o3, 2)] := by
  have hrefl := checkReflections_naSite (1/20) (by norm_num) (by norm_num)
  have hfil : List.filter isCationB s1.sites = [naSite] := by
    simp [s1, isCationB, anions, naSite]
  refine ⟨?_, by norm_num [w4], by norm_num [w4], ?_⟩
  · rw [getAllCationPolyhedralWReflections, hfil]
    simp only [List.flatMap_cons, List.flatMap_nil, hrefl, List.append_nil,
      List.length_nil]
    norm_num [buildPoly, anionSitesOf, neigh4, anions, selectBonds, pyRound,
      naSite, w4, o1, o2, o3, o4, latt0, (by decide : ¬ ("Na" = "Rn"))]
  · norm_num [get_polyhedra, anions, s1, naSite, neigh4, w4, latt0,
      o1, o2, o3, o4]

def cNa0 : PeriodicSite := ⟨0, "Na", (0, 0, 0), latt0⟩

/-- A distinct site object (`objId` 1) with the same value as `cNa0`. -/
def cNa1 : PeriodicSite := ⟨1, "Na", (0, 0, 0), latt0⟩

def cK : PeriodicSite := ⟨2, "K", (0, 0, 0), latt0⟩

def oA : PeriodicSite := ⟨3, "O", (1/2, 0, 0), latt0⟩

/-- A distinct site object (`objId` 4) with the same value as `oA`. -/
def oB : PeriodicSite := ⟨4, "O", (1/2, 0, 0), latt0⟩

/-- C6 counterexample: `get_connectivity` compares sites with pymatgen
value equality, not object identity: two polyhedra with value-equal but
non-identical center objects compare as "self" (result −1), and two
value-equal but non-identical peripheral site objects count as shared. -/
theorem get_connectivity_identity_counterexample :
    Polyhedra.get_connectivity ⟨cNa0, []⟩ ⟨cNa1, []⟩ = -1
  ∧ cNa0.objId ≠ cNa1.objId
  ∧ Polyhedra.get_connectivity ⟨cNa0, [(oA, 2)]⟩ ⟨cK, [(oB, 2)]⟩ = 1
  ∧ oA.objId ≠ oB.objId
  ∧ oA ≠ oB := by
  refine ⟨?_, by norm_num [cNa0, cNa1], ?_, by norm_num [oA, oB],
    by norm_num [oA, oB]⟩
  · norm_num [Polyhedra.get_connectivity, Polyhedra.get_central_site,
      siteEq, strip, cNa0, cNa1, latt0]
  · norm_num [Polyhedra.get_connectivity, Polyhedra.get_central_site,
      Polyhedra.get_peripheral_sites, siteEq, strip, connLoop, innerMatch,
      cNa0, cK, oA, oB, latt0, (by decide : ¬ ("Na" = "K"))]

/-- C7 counterexample: `sharedCount` is not symmetric when a peripheral
list contains duplicate (value-equal) sites: a polyhedron listing the
same oxygen entry twice shares 2 with a single-entry polyhedron, which
shares only 1 back. -/
theorem sharedCount_symmetry_counterexample :
    Polyhedra.get_connectivity ⟨cNa0, [(oA, 1), (oA, 1)]⟩ ⟨cK, [(oA, 1)]⟩ = 2
  ∧ Polyhedra.get_connectivity ⟨cK, [(oA, 1)]⟩ ⟨cNa0, [(oA, 1), (oA, 1)]⟩ = 1 := by
  refine ⟨?_, ?_⟩ <;>
    norm_num [Polyhedra.get_connectivity, Polyhedra.get_central_site,
      Polyhedra.get_peripheral_sites, siteEq, strip, connLoop, innerMatch,
      cNa0, cK, oA, latt0, (by decide : ¬ ("Na" = "K")),
      (by decide : ¬ ("K" = "Na"))]

/-! ### Membership facts about the builder -/

theorem selectBonds_subset (spec : String) (w : ℚ → List ℚ → ℚ)
    (bl : List ℚ) (l : List (PeriodicSite × ℚ)) :
    ∀ e ∈ (selectBonds spec w bl l).1, e ∈ l := by
  induction l with
  | nil => simp [selectBonds]
  | cons b rest ih =>
      intro e he
      rw [selectBonds] at he
      by_cases h1 : spec = "Rn"
      · rw [if_pos h1] at he
        rcases List.mem_cons.mp he with h | h
        · exact h ▸ List.mem_cons_self b rest
        · exact List.mem_cons_of_mem b (ih e h)
      · rw [if_neg h1] at he
        by_cases h2 : 0 < w b.2 bl
        · rw [if_pos h2] at he
          rcases List.mem_cons.mp he with h | h
          · exact h ▸ List.mem_cons_self b rest
          · exact List.mem_cons_of_mem b (ih e h)
        · rw [if_neg h2] at he
          exact List.mem_cons_of_mem b (ih e he)

theorem buildPoly_center
    (neigh : Structure → PeriodicSite → ℚ → List (PeriodicSite × ℚ))
    (w : ℚ → List ℚ → ℚ) (σ : Structure) (site : PeriodicSite)
    (radius : ℚ) : (buildPoly neigh w σ site radius).1.1 = site := rfl

theorem buildPoly_peripheral
    (neigh : Structure → PeriodicSite → ℚ → List (PeriodicSite × ℚ))
    (w : ℚ → List ℚ → ℚ) (σ : Structure) (site : PeriodicSite)
    (radius : ℚ) :
    (buildPoly neigh w σ site radius).1.2 =
      (selectBonds site.species_string w
        ((anionSitesOf neigh σ site radius).map (fun e => e.2))
        (anionSitesOf neigh σ site radius)).1 := rfl

theorem mem_buildPoly_peripheral_anion
    (neigh : Structure → PeriodicSite → ℚ → List (PeriodicSite × ℚ))
    (w : ℚ → List ℚ → ℚ) (σ : Structure) (site : PeriodicSite)
    (radius : ℚ) (e : PeriodicSite × ℚ)
    (he : e ∈ (buildPoly neigh w σ site radius).1.2) :
    anions.contains e.1.species_string = true ∧ e.2 < radius := by
  rw [buildPoly_peripheral] at he
  have hmem := selectBonds_subset _ _ _ _ e he
  rw [anionSitesOf] at hmem
  have h2 := (List.mem_filter.mp hmem).2
  simp only [Bool.and_eq_true] at h2
  exact ⟨h2.1, of_decide_eq_true h2.2⟩

/-- The cation list after the reflection append (source lines 224-234):
every member satisfies the cation test. -/
theorem mem_builder_sites_cation (s : Structure) (margin : ℚ)
    (site : PeriodicSite)
    (hsite : site ∈ s.sites.filter isCationB ++
      (s.sites.filter isCationB).flatMap
        (fun c => checkReflections c margin)) :
    isCationB site = true := by
  rcases List.mem_append.mp hsite with h | h
  · exact (List.mem_filter.mp h).2
  · rcases List.mem_flatMap.mp h with ⟨c, hc, hr⟩
    have hs := (mem_checkReflections_fields c margin site hr).1
    have hcat := (List.mem_filter.mp hc).2
    rw [isCationB, hs]
    exact hcat

theorem siteEq_false_of_species (a b : PeriodicSite)
    (h : a.species_string ≠ b.species_string) : siteEq a b = false := by
  apply decide_eq_false
  intro hstrip
  exact h (congrArg Prod.fst hstrip)

/-- An empty-peripheral polyhedron never yields a positive shared count:
`get_connectivity` returns −1 on a value-equal center and 0 otherwise. -/
theorem get_connectivity_nonpos_of_empty (p q : Polyhedra)
    (h : p.peripheralIons = []) : Polyhedra.get_connectivity p q ≤ 0 := by
  rw [Polyhedra.get_connectivity]
  by_cases hc : siteEq p.center q.get_central_site = true
  · rw [if_pos hc]
    omega
  · rw [if_neg hc, h]
    rw [connLoop]
    omega

/-- C5: in every builder output item the central cation is never among
the peripheral entries (the kept entries are anions, the center is a
cation, and pymatgen equality compares species), and an item with an
empty peripheral list is a valid isolated polyhedron (its shared count
with anything is never positive). -/
theorem builder_center_not_peripheral :
    (∀ (neigh : Structure → PeriodicSite → ℚ → List (PeriodicSite × ℚ))
       (w : ℚ → List ℚ → ℚ) (s : Structure) (margin radius : ℚ),
       ∀ x ∈ getAllCationPolyhedralWReflections neigh w s margin radius,
       ∀ e ∈ x.1.2, siteEq e.1 x.1.1 = false)
  ∧ (∀ p q : Polyhedra, p.peripheralIons = [] →
       Polyhedra.get_connectivity p q ≤ 0) := by
  constructor
  · intro neigh w s margin radius x hx e he
    simp only [getAllCationPolyhedralWReflections, List.mem_map] at hx
    rcases hx with ⟨site, hsite, rfl⟩
    have hcat : isCationB site = true := by
      by_cases hc : 0 < ((s.sites.filter isCationB).flatMap
          (fun c => checkReflections c margin)).length
      · rw [if_pos (decide_eq_true hc)] at hsite
        exact mem_builder_sites_cation s margin site hsite
      · rw [if_neg (by simpa using hc)] at hsite
        exact mem_builder_sites_cation s margin site
          (List.mem_append.mpr (Or.inl hsite))
    rw [buildPoly_center]
    have ha := (mem_buildPoly_peripheral_anion _ _ _ _ _ e he).1
    apply siteEq_false_of_species
    intro hsp
    rw [isCationB, ← hsp, ha] at hcat
    simp at hcat
  · exact get_connectivity_nonpos_of_empty

/-- A neighbor oracle with a single oxygen entry at distance 2. -/
def neighO : Structure → PeriodicSite → ℚ → List (PeriodicSite × ℚ) :=
  fun _ _ _ => [(o1, 2)]

theorem builder_center_not_peripheral_witness :
    siteEq o1 naSite = false
  ∧ Polyhedra.get_connectivity ⟨naSite, []⟩ ⟨naSite, []⟩ ≤ 0 := by
  constructor
  · have hx : ((naSite, [(o1, (2:ℚ))]), (1:ℤ)) ∈
        getAllCationPolyhedralWReflections neighO wOne s1 (1/20) 3 := by
      have hrefl := checkReflections_naSite (1/20) (by norm_num) (by norm_num)
      have hfil : List.filter isCationB s1.sites = [naSite] := by
        simp [s1, isCationB, anions, naSite]
      rw [getAllCationPolyhedralWReflections, hfil]
      simp only [List.flatMap_cons, List.flatMap_nil, hrefl, List.append_nil,
        List.length_nil]
      norm_num [buildPoly, anionSitesOf, neighO, selectBonds, pyRound, wOne,
        naSite, o1, latt0, anions, (by decide : ¬ ("Na" = "Rn"))]
    exact builder_center_not_peripheral.1 neighO wOne s1 (1/20) 3
      ((naSite, [(o1, 2)]), 1) hx (o1, 2) (List.mem_singleton.mpr rfl)
  · exact builder_center_not_peripheral.2 ⟨naSite, []⟩ ⟨naSite, []⟩ rfl

/-! ### C3: the reflection generator against the spec enumeration -/

theorem specSign_one_iff (c margin : ℚ) :
    specSign c margin = 1 ↔ (0 ≤ c ∧ c ≤ margin) := by
  unfold specSign
  split_ifs with h1 h2
  · exact ⟨fun _ => h1, fun _ => rfl⟩
  · exact ⟨fun hh => absurd hh (by decide), fun hh => absurd hh h1⟩
  · exact ⟨fun hh => absurd hh (by decide), fun hh => absurd hh h1⟩

theorem specSign_negone_iff (c margin : ℚ) (h : margin < 1/2) :
    specSign c margin = -1 ↔ (1 - margin ≤ c ∧ c ≤ 1) := by
  unfold specSign
  split_ifs with h1 h2
  · constructor
    · intro hh
      exact absurd hh (by decide)
    · intro hh
      exact absurd (by linarith [h1.1, h1.2, hh.1, hh.2] : (1:ℚ)/2 ≤ margin)
        (by linarith)
  · exact ⟨fun _ => h2, fun _ => rfl⟩
  · exact ⟨fun hh => absurd hh (by decide), fun hh => absurd hh h2⟩

/-- C3: for any margin below 1/2 the reflection generator emits exactly
one copy per non-empty subset of the near-boundary axes (sign `+1` on
`[0, margin]`, `-1` on `[1-margin, 1]`), each copy translated by the
signed unit vector on its axes with species and lattice unchanged, and
never more than 7 copies. -/
theorem checkReflections_matches_subset_enumeration (site : PeriodicSite)
    (margin : ℚ) (h : margin < 1/2) :
    checkReflections site margin = reflectSpec site margin
  ∧ (∀ r ∈ checkReflections site margin,
       r.species_string = site.species_string ∧ r.lattice = site.lattice)
  ∧ (checkReflections site margin).length ≤ 7
  ∧ (specSign site.frac_coords.1 margin = 1 ↔
       0 ≤ site.frac_coords.1 ∧ site.frac_coords.1 ≤ margin)
  ∧ (specSign site.frac_coords.1 margin = -1 ↔
       1 - margin ≤ site.frac_coords.1 ∧ site.frac_coords.1 ≤ 1) :=
  ⟨checkReflections_eq_reflectSpec site margin h,
   mem_checkReflections_fields site margin,
   checkReflections_length_le site margin,
   specSign_one_iff _ margin,
   specSign_negone_iff _ margin h⟩

/-- The first reflection test case of the spec: a cation at
(0.02, 0.5, 0.5). -/
def siteA : PeriodicSite := ⟨0, "Na", (1/50, 1/2, 1/2), latt0⟩

/-- The second reflection test case of the spec: a cation at
(0.02, 0.98, 0.5). -/
def siteB : PeriodicSite := ⟨0, "Na", (1/50, 49/50, 1/2), latt0⟩

theorem checkReflections_siteA :
    checkReflections siteA (1/20) = [⟨0, "Na", (51/50, 1/2, 1/2), latt0⟩] := by
  have hx : codeSign (1/50 : ℚ) (1/20) = 1 := by
    rw [codeSign]
    norm_num
  have hy : codeSign (1/2 : ℚ) (1/20) = 0 := by
    rw [codeSign]
    norm_num
  rw [checkReflections]
  show buildRefl (codeSign (1/50) (1/20)) (codeSign (1/2) (1/20))
    (codeSign (1/2) (1/20)) siteA = _
  rw [hx, hy]
  norm_num [buildRefl, mkR, siteA, Prod.mk_add_mk]

theorem checkReflections_siteB :
    checkReflections siteB (1/20)
      = [⟨0, "Na", (51/50, 49/50, 1/2), latt0⟩,
         ⟨0, "Na", (51/50, -1/50, 1/2), latt0⟩,
         ⟨0, "Na", (1/50, -1/50, 1/2), latt0⟩] := by
  have hx : codeSign (1/50 : ℚ) (1/20) = 1 := by
    rw [codeSign]
    norm_num
  have hy : codeSign (49/50 : ℚ) (1/20) = -1 := by
    rw [codeSign]
    norm_num
  have hz : codeSign (1/2 : ℚ) (1/20) = 0 := by
    rw [codeSign]
    norm_num
  rw [checkReflections]
  show buildRefl (codeSign (1/50) (1/20)) (codeSign (49/50) (1/20))
    (codeSign (1/2) (1/20)) siteB = _
  rw [hx, hy, hz]
  norm_num [buildRefl, mkR, siteB, Prod.mk_add_mk]

theorem checkReflections_matches_subset_enumeration_witness :
    ((1:ℚ)/20 < 1/2)
  ∧ checkReflections siteA (1/20) = reflectSpec siteA (1/20)
  ∧ checkReflections siteA (1/20) = [⟨0, "Na", (51/50, 1/2, 1/2), latt0⟩]
  ∧ (checkReflections siteB (1/20)).length = 3
  ∧ checkReflections siteB (1/20)
      = [⟨0, "Na", (51/50, 49/50, 1/2), latt0⟩,
         ⟨0, "Na", (51/50, -1/50, 1/2), latt0⟩,
         ⟨0, "Na", (1/50, -1/50, 1/2), latt0⟩] :=
  ⟨by norm_num,
   (checkReflections_matches_subset_enumeration siteA (1/20)
     (by norm_num)).1,
   checkReflections_siteA, by rw [checkReflections_siteB]; rfl,
   checkReflections_siteB⟩

/-! ### C6 / C7: value semantics and symmetry of the shared count -/

/-- The non-self branch of `get_connectivity` counts the `a`-side entries
with a value-equal partner on the `b` side, each at most once. -/
theorem get_connectivity_eq_countP (a b : Polyhedra)
    (hf : siteEq a.center b.center = false) :
    Polyhedra.get_connectivity a b =
      (a.peripheralIons.countP
        (fun e => b.peripheralIons.any (fun f => siteEq e.1 f.1)) : ℤ) := by
  rw [Polyhedra.get_connectivity,
    if_neg (by simp [Polyhedra.get_central_site, hf]), connLoop_eq_countP]
  rfl

/-- C6 (amended): `sharedCount` returns −1 exactly on value-equal centers
(hence −1 on self-comparison), and otherwise counts the `a`-side
peripheral entries having a value-equal partner in `b`, each `a`-side
entry counted at most once. -/
theorem get_connectivity_value_semantics (a b : Polyhedra) :
    (Polyhedra.get_connectivity a b = -1 ↔ siteEq a.center b.center = true)
  ∧ Polyhedra.get_connectivity a a = -1
  ∧ (siteEq a.center b.center = false →
      Polyhedra.get_connectivity a b =
        (a.peripheralIons.countP
          (fun e => b.peripheralIons.any (fun f => siteEq e.1 f.1)) : ℤ)
      ∧ Polyhedra.get_connectivity a b ≤ (a.peripheralIons.length : ℤ)) := by
  refine ⟨?_, ?_, ?_⟩
  · rw [Polyhedra.get_connectivity]
    by_cases hc : siteEq a.center b.get_central_site = true
    · rw [if_pos hc]
      exact ⟨fun _ => hc, fun _ => rfl⟩
    · rw [if_neg hc]
      constructor
      · intro hh
        omega
      · intro hh
        exact absurd hh hc
  · rw [Polyhedra.get_connectivity, Polyhedra.get_central_site,
      if_pos (siteEq_refl a.center)]
  · intro hf
    refine ⟨get_connectivity_eq_countP a b hf, ?_⟩
    rw [get_connectivity_eq_countP a b hf]
    exact_mod_cast List.countP_le_length _

theorem get_connectivity_value_semantics_witness :
    Polyhedra.get_connectivity ⟨cNa0, []⟩ ⟨cNa0, []⟩ = -1
  ∧ Polyhedra.get_connectivity ⟨cNa0, [(oA, 2)]⟩ ⟨cK, [(oB, 2)]⟩
      = (([(oA, (2:ℚ))].countP
          (fun e => [(oB, (2:ℚ))].any (fun f => siteEq e.1 f.1))) : ℤ) :=
  ⟨(get_connectivity_value_semantics ⟨cNa0, []⟩ ⟨cNa0, []⟩).2.1,
   ((get_connectivity_value_semantics ⟨cNa0, [(oA, 2)]⟩ ⟨cK, [(oB, 2)]⟩).2.2
      (by simp [siteEq, strip, cNa0, cK, latt0])).1⟩

theorem any_siteEq_eq_mem_strip (x : PeriodicSite)
    (l : List (PeriodicSite × ℚ)) :
    l.any (fun f => siteEq x f.1)
      = decide (strip x ∈ l.map (fun e => strip e.1)) := by
  induction l with
  | nil => simp
  | cons f rest ih =>
      rw [List.any_cons, ih, List.map_cons, siteEq]
      by_cases h : strip x = strip f.1
      · simp [h, List.mem_cons]
      · simp [h, List.mem_cons]

/-- Counting the members of one duplicate-free list that occur in another
is symmetric (stated for arbitrary boolean tests deciding the two
memberships). -/
theorem countP_mem_comm {α : Type} [DecidableEq α] (A B : List α)
    (hA : A.Nodup) (hB : B.Nodup) (p q : α → Bool)
    (hp : ∀ x, p x = true ↔ x ∈ B) (hq : ∀ x, q x = true ↔ x ∈ A) :
    A.countP p = B.countP q := by
  have e0 : A.countP p = A.countP (fun a => decide (a ∈ B)) :=
    List.countP_congr (fun x _ => (hp x).trans (by simp))
  have e3 : B.countP q = B.countP (fun b => decide (b ∈ A)) :=
    List.countP_congr (fun x _ => (hq x).trans (by simp))
  rw [e0, e3, List.countP_eq_length_filter, List.countP_eq_length_filter]
  have h1 : (A.filter (fun a => decide (a ∈ B))).Nodup := hA.filter _
  have h2 : (B.filter (fun b => decide (b ∈ A))).Nodup := hB.filter _
  rw [← List.toFinset_card_of_nodup h1, ← List.toFinset_card_of_nodup h2]
  have e1 : (A.filter (fun a => decide (a ∈ B))).toFinset
      = A.toFinset ∩ B.toFinset := by
    ext x
    simp
  have e2 : (B.filter (fun b => decide (b ∈ A))).toFinset
      = B.toFinset ∩ A.toFinset := by
    ext x
    simp
  rw [e1, e2, Finset.inter_comm]

/-- The shared count in terms of the value parts (strips) of the
peripheral sites. -/
theorem get_connectivity_strip_form (a b : Polyhedra)
    (hf : siteEq a.center b.center = false) :
    Polyhedra.get_connectivity a b =
      ((a.peripheralIons.map (fun e => strip e.1)).countP
        (fun v => decide (v ∈ b.peripheralIons.map (fun e => strip e.1))) : ℤ) := by
  rw [get_connectivity_eq_countP a b hf, List.countP_map]
  congr 1
  apply List.countP_congr
  intro e _
  rw [any_siteEq_eq_mem_strip e.1 b.peripheralIons]
  exact Iff.rfl

/-- C7 (amended): for distinct-centered polyhedra whose peripheral lists
are free of duplicate (value-equal) sites, the shared count is
symmetric. -/
theorem sharedCount_symmetric_nodup (a b : Polyhedra)
    (hab : siteEq a.center b.center = false)
    (ha : (a.peripheralIons.map (fun e => strip e.1)).Nodup)
    (hb : (b.peripheralIons.map (fun e => strip e.1)).Nodup) :
    Polyhedra.get_connectivity a b = Polyhedra.get_connectivity b a := by
  have hba : siteEq b.center a.center = false := by
    rw [siteEq_comm]
    exact hab
  rw [get_connectivity_strip_form a b hab, get_connectivity_strip_form b a hba]
  exact_mod_cast countP_mem_comm _ _ ha hb _ _ (fun x => by simp)
    (fun x => by simp)

theorem sharedCount_symmetric_nodup_witness :
    Polyhedra.get_connectivity ⟨cNa0, [(oA, 1)]⟩ ⟨cK, [(oB, 1)]⟩
      = Polyhedra.get_connectivity ⟨cK, [(oB, 1)]⟩ ⟨cNa0, [(oA, 1)]⟩ :=
  sharedCount_symmetric_nodup ⟨cNa0, [(oA, 1)]⟩ ⟨cK, [(oB, 1)]⟩
    (by simp [siteEq, strip, cNa0, cK, latt0]) (by simp) (by simp)

/-! ### C2: closed form of the classifier buckets -/

/-- C2: the classifier result is exactly the sum over each polyhedron of
the species of one isolated count (iff no comparison with the working
list gave a positive shared count) plus one point/edge/face count per
comparison with shared count 1 / 2 / at least 3; and every ordered
comparison falls in exactly one of the four classes
(nonpositive-or-self, 1, 2, at least 3). -/
theorem count_connectivity_buckets :
    (∀ (L : List Polyhedra) (sp : String),
       dictLookup (count_connectivity L) sp =
         if L.any (fun p => decide (p.get_central_name = sp)) then
           some (contribSum L L sp)
         else none)
  ∧ (∀ p q : Polyhedra,
       ((if p.get_connectivity q ≤ 0 then 1 else 0)
        + (if p.get_connectivity q = 1 then 1 else 0)
        + (if p.get_connectivity q = 2 then 1 else 0)
        + (if 3 ≤ p.get_connectivity q then 1 else 0) : ℕ) = 1) := by
  refine ⟨count_connectivity_lookup, ?_⟩
  intro p q
  split_ifs <;> omega

/-! ### C8 / C9: no parameter validation; non-positive radius -/

theorem buildPoly_peripheral_empty
    (neigh : Structure → PeriodicSite → ℚ → List (PeriodicSite × ℚ))
    (w : ℚ → List ℚ → ℚ) (σ : Structure) (site : PeriodicSite)
    (radius : ℚ) (hr : radius ≤ 0)
    (hd : ∀ e ∈ neigh σ site radius, 0 ≤ e.2) :
    (buildPoly neigh w σ site radius).1.2 = [] := by
  have ha : anionSitesOf neigh σ site radius = [] := by
    rw [anionSitesOf, List.filter_eq_nil_iff]
    intro e he hcontra
    simp only [Bool.and_eq_true] at hcontra
    have h1 := of_decide_eq_true hcontra.2
    have h2 := hd e he
    linarith
  rw [buildPoly_peripheral, ha]
  rfl

/-- With a non-positive radius the strict `entry[1] < radius` filter
(source line 255) keeps nothing, so every produced item has an empty
peripheral list. -/
theorem builder_peripherals_empty
    (neigh : Structure → PeriodicSite → ℚ → List (PeriodicSite × ℚ))
    (w : ℚ → List ℚ → ℚ) (s : Structure) (margin radius : ℚ)
    (hr : radius ≤ 0)
    (hd : ∀ σ site, ∀ e ∈ neigh σ site radius, 0 ≤ e.2) :
    ∀ x ∈ getAllCationPolyhedralWReflections neigh w s margin radius,
      x.1.2 = [] := by
  intro x hx
  simp only [getAllCationPolyhedralWReflections, List.mem_map] at hx
  rcases hx with ⟨site, _, rfl⟩
  exact buildPoly_peripheral_empty _ _ _ _ _ hr (hd _ site)

/-- C8 counterexample: neither function validates its parameters.  At
margin 0.6 ≥ 0.5 the reflection generator proceeds and emits 7 copies
for an interior site (both boundary tests fire on every axis, the −1
assignment winning); at radius −1 the builder proceeds and produces its
usual output. -/
theorem no_validation_counterexample :
    (checkReflections naSite (3/5)).length = 7
  ∧ getAllCationPolyhedralWReflections neighEmpty wOne s1 (1/20) (-1)
      = [((naSite, []), 0)] := by
  constructor
  · have hx : codeSign (1/2 : ℚ) (3/5) = -1 := by
      rw [codeSign]
      norm_num
    rw [checkReflections]
    show (buildRefl (codeSign (1/2) (3/5)) (codeSign (1/2) (3/5))
      (codeSign (1/2) (3/5)) naSite).length = 7
    rw [hx]
    rfl
  · exact builder_neighEmpty_eval (-1)

/-- C8 (amended): the code performs no margin or radius validation: both
functions are total, the reflection generator emits at most 7 copies for
every margin, and a non-positive radius merely empties every peripheral
list via the strict distance filter. -/
theorem no_validation_totality :
    (∀ (site : PeriodicSite) (margin : ℚ),
       (checkReflections site margin).length ≤ 7)
  ∧ (∀ (neigh : Structure → PeriodicSite → ℚ → List (PeriodicSite × ℚ))
       (w : ℚ → List ℚ → ℚ) (s : Structure) (margin radius : ℚ),
       radius ≤ 0 →
       (∀ σ site, ∀ e ∈ neigh σ site radius, 0 ≤ e.2) →
       ∀ x ∈ getAllCationPolyhedralWReflections neigh w s margin radius,
         x.1.2 = []) :=
  ⟨checkReflections_length_le,
   fun neigh w s margin radius hr hd =>
     builder_peripherals_empty neigh w s margin radius hr hd⟩

theorem no_validation_totality_witness :
    (checkReflections naSite (3/5)).length ≤ 7
  ∧ ∀ x ∈ getAllCationPolyhedralWReflections neighEmpty wOne s1 (1/20) (-1),
      x.1.2 = [] :=
  ⟨no_validation_totality.1 naSite (3/5),
   no_validation_totality.2 neighEmpty wOne s1 (1/20) (-1) (by norm_num)
     (fun σ site e he => by simp [neighEmpty] at he)⟩

/-- The builder output repackaged as `Polyhedra` values (the conversion
the classifier needs; its absence from the source is the subject of
claim C1). -/
def builtPolyhedra
    (neigh : Structure → PeriodicSite → ℚ → List (PeriodicSite × ℚ))
    (w : ℚ → List ℚ → ℚ) (s : Structure) (margin radius : ℚ) :
    List Polyhedra :=
  (getAllCationPolyhedralWReflections neigh w s margin radius).map
    (fun x => Polyhedra.mk x.1.1 x.1.2)

theorem sum_const_quad {β : Type} (l : List β) :
    (l.map (fun _ => ((1:ℕ), (0:ℕ), (0:ℕ), (0:ℕ)))).sum
      = (l.length, 0, 0, 0) := by
  induction l with
  | nil => rfl
  | cons b rest ih =>
      simp [List.map_cons, List.sum_cons, ih, Prod.mk_add_mk, Nat.add_comm]

/-- C9: at radius 0 every polyhedron has an empty peripheral list
(distances are non-negative and the filter is strict), and the
classifier then reports every cation polyhedron as isolated: each
species histogram is `[number of its polyhedra, 0, 0, 0]`. -/
theorem radius_zero_all_isolated
    (neigh : Structure → PeriodicSite → ℚ → List (PeriodicSite × ℚ))
    (w : ℚ → List ℚ → ℚ) (s : Structure) (margin : ℚ)
    (hd : ∀ σ site, ∀ e ∈ neigh σ site 0, 0 ≤ e.2) :
    (∀ x ∈ getAllCationPolyhedralWReflections neigh w s margin 0,
       x.1.2 = [])
  ∧ (∀ sp, dictLookup
        (count_connectivity (builtPolyhedra neigh w s margin 0)) sp
      = if (builtPolyhedra neigh w s margin 0).any
            (fun p => decide (p.get_central_name = sp)) then
          some ((builtPolyhedra neigh w s margin 0).countP
            (fun p => decide (p.get_central_name = sp)), 0, 0, 0)
        else none) := by
  have hempty := builder_peripherals_empty neigh w s margin 0 le_rfl hd
  refine ⟨hempty, ?_⟩
  intro sp
  have hLempty : ∀ p ∈ builtPolyhedra neigh w s margin 0,
      p.peripheralIons = [] := by
    intro p hp
    rw [builtPolyhedra] at hp
    rcases List.mem_map.mp hp with ⟨x, hx, rfl⟩
    exact hempty x hx
  rw [count_connectivity_lookup]
  by_cases hany : (builtPolyhedra neigh w s margin 0).any
      (fun p => decide (p.get_central_name = sp)) = true
  · rw [if_pos hany, if_pos hany]
    congr 1
    rw [contribSum]
    have hc : ∀ p ∈ (builtPolyhedra neigh w s margin 0).filter
        (fun p => decide (p.get_central_name = sp)),
        contrib (builtPolyhedra neigh w s margin 0) p = (1, 0, 0, 0) := by
      intro p hp
      have hpe := hLempty p (List.mem_of_mem_filter hp)
      rw [contrib]
      have h1 : (builtPolyhedra neigh w s margin 0).any
          (fun q => decide (0 < p.get_connectivity q)) = false := by
        rw [List.any_eq_false]
        intro q hq
        have := get_connectivity_nonpos_of_empty p q hpe
        simp only [decide_eq_true_eq]
        omega
      have h2 : (builtPolyhedra neigh w s margin 0).countP
          (fun q => decide (p.get_connectivity q = 1)) = 0 := by
        rw [List.countP_eq_zero]
        intro q hq
        have := get_connectivity_nonpos_of_empty p q hpe
        simp only [decide_eq_true_eq]
        omega
      have h3 : (builtPolyhedra neigh w s margin 0).countP
          (fun q => decide (p.get_connectivity q = 2)) = 0 := by
        rw [List.countP_eq_zero]
        intro q hq
        have := get_connectivity_nonpos_of_empty p q hpe
        simp only [decide_eq_true_eq]
        omega
      have h4 : (builtPolyhedra neigh w s margin 0).countP
          (fun q => decide (3 ≤ p.get_connectivity q)) = 0 := by
        rw [List.countP_eq_zero]
        intro q hq
        have := get_connectivity_nonpos_of_empty p q hpe
        simp only [decide_eq_true_eq]
        omega
      rw [h1, h2, h3, h4]
      rfl
    rw [List.map_congr_left hc, sum_const_quad, List.countP_eq_length_filter]
  · rw [if_neg hany, if_neg hany]

theorem radius_zero_all_isolated_witness :
    dictLookup (count_connectivity
      (builtPolyhedra neighEmpty wOne s1 (1/20) 0)) "Na"
      = some (1, 0, 0, 0) := by
  have h := (radius_zero_all_isolated neighEmpty wOne s1 (1/20)
    (fun σ site e he => by simp [neighEmpty] at he)).2 "Na"
  rw [h]
  have hB : builtPolyhedra neighEmpty wOne s1 (1/20) 0 = [⟨naSite, []⟩] := by
    rw [builtPolyhedra, builder_neighEmpty_eval 0]
    rfl
  rw [hB]
  simp [Polyhedra.get_central_name, naSite]

/-! ### C10: the builder does not mutate the input structure -/

/-- C10: running the state-threaded builder leaves the input structure
object untouched; the structure the neighbor queries use is the input
itself when no reflections exist, and otherwise a freshly constructed
value with the same lattice whose sites are the original sites followed
by the reflections (as new site objects). -/
theorem builder_no_mutation
    (neigh : Structure → PeriodicSite → ℚ → List (PeriodicSite × ℚ))
    (w : ℚ → List ℚ → ℚ) (margin radius : ℚ) (s : Structure) :
    (getAllCationPolyhedralWReflectionsSt neigh w margin radius).run s
      = (getAllCationPolyhedralWReflections neigh w s margin radius, s)
  ∧ getAllCationPolyhedralWReflections neigh w s margin radius
      = (if 0 < (reflectionsOf s margin).length then
           s.sites.filter isCationB ++ reflectionsOf s margin
         else s.sites.filter isCationB).map
          (fun site => buildPoly neigh w (queryStructOf s margin) site radius)
  ∧ (reflectionsOf s margin ≠ [] →
       queryStructOf s margin
         = ⟨s.lattice, (s.sites ++ reflectionsOf s margin).map
             (fun t => ⟨0, t.species_string, t.frac_coords, s.lattice⟩)⟩)
  ∧ (reflectionsOf s margin = [] → queryStructOf s margin = s) := by
  refine ⟨rfl, ?_, ?_, ?_⟩
  · simp only [getAllCationPolyhedralWReflections, reflectionsOf,
      queryStructOf, decide_eq_true_eq]
  · intro hne
    rw [queryStructOf, if_pos (List.length_pos.mpr hne), Structure.ofSpecies]
    have hlen : (s.sites.map (fun t => t.species_string)).length
        = (s.sites.map (fun t => t.frac_coords)).length := by
      simp
    congr 1
    rw [List.zip_append hlen, List.zip_map', List.zip_map', ← List.map_append,
      List.map_map]
    exact List.map_congr_left (fun t _ => rfl)
  · intro h
    rw [queryStructOf, if_neg (by simp [h])]

/-- A one-cation structure whose site lies near the low x boundary. -/
def sEdge : Structure := ⟨latt0, [siteA]⟩

theorem builder_no_mutation_witness :
    (getAllCationPolyhedralWReflectionsSt neighEmpty wOne (1/20) 3).run sEdge
      = (getAllCationPolyhedralWReflections neighEmpty wOne sEdge (1/20) 3,
         sEdge)
  ∧ queryStructOf sEdge (1/20)
      = ⟨sEdge.lattice, (sEdge.sites ++ reflectionsOf sEdge (1/20)).map
          (fun t => ⟨0, t.species_string, t.frac_coords, sEdge.lattice⟩)⟩ := by
  have hne : reflectionsOf sEdge (1/20) ≠ [] := by
    have hfil : List.filter isCationB sEdge.sites = [siteA] := by
      simp [sEdge, isCationB, anions, siteA]
    rw [reflectionsOf, hfil]
    simp only [List.flatMap_cons, List.flatMap_nil, List.append_nil,
      checkReflections_siteA]
    simp
  exact ⟨(builder_no_mutation neighEmpty wOne (1/20) 3 sEdge).1,
    (builder_no_mutation neighEmpty wOne (1/20) 3 sEdge).2.2.1 hne⟩

end ConnFS
